import Mathlib

/-!
Shallow embedding of the sidecar process supervisor
(`src/src-tauri/src/sidecar.rs`) and proofs about its operations.

The Rust component is `SidecarManager { process: Arc<Mutex<Option<Child>>> }`
with operations `find_python`, `start`, `wait_for_health`, `stop`,
`is_running`, and a `Drop` implementation calling `stop`.

Interaction with the OS and network is made explicit as oracle functions:
  * `probe cmd arg`   — outcome of `Command::new(cmd).arg(arg).output()`:
      `none` models `Err(_)`, `some b` models `Ok(output)` with
      `b = output.status.success()`;
  * `spawn py args`   — outcome of `Command::new(py).args(args).spawn()`;
  * `kill`, `wait`    — outcomes of `child.kill()` / `child.wait()`
      (their `Err` payloads are only printed by the source, never used);
  * `tw c`            — outcome of `child.try_wait()`;
  * `outcome t`       — outcome of the HTTP GET issued at elapsed time `t`
      (milliseconds since the loop started);
  * `dur t`           — duration in milliseconds of the HTTP request issued
      at elapsed time `t` (the request timeout bounds it by 2000 in the
      real system; no theorem below needs that bound).
-/

/-- Opaque OS process handle, standing for `std::process::Child`. -/
structure Child where
  pid : Nat
deriving DecidableEq, Repr

/-- Outcome of the HTTP health request
(`client.get(url).timeout(2s).send().await`): `response b` models
`Ok(response)` with `b = response.status().is_success()`; `connError`
models `Err(_)` (connection failure or request timeout). -/
inductive HttpResult where
  | response (isSuccess : Bool)
  | connError
deriving DecidableEq, Repr

/-- Outcome of `child.try_wait()`: `exited` models `Ok(Some(status))`,
`stillRunning` models `Ok(None)`, `probeError` models `Err(e)`. -/
inductive TryWaitResult where
  | exited
  | stillRunning
  | probeError
deriving DecidableEq, Repr

/-- The supervisor: holds the contents of the `Mutex<Option<Child>>` slot.
All operations are modelled as explicit state transformers on this
structure; the lock itself serialises access and does not appear in the
sequential model. -/
structure SidecarManager where
  process : Option Child
deriving DecidableEq, Repr

/-- `SidecarManager::new()`: the slot starts out empty (`None`). -/
def SidecarManager.new : SidecarManager :=
  ⟨none⟩

/-- The candidate interpreter commands tried in order by `find_python`. -/
def pythonCandidates : List String :=
  ["python3", "python"]

/-- The version-query argument passed to each candidate. -/
def versionArg : String :=
  "--version"

/-- The error message returned when no Python interpreter is found. -/
def pythonNotFoundMsg : String :=
  "Python not found. Please install Python 3.10 or higher."

/-- The loop of `find_python`: try each candidate with the version-query
argument, accept the first whose invocation returns `Ok` with a successful
exit status, otherwise fall through to the not-found error. -/
def findPythonFrom (probe : String → String → Option Bool) :
    List String → Except String String
  | [] => .error pythonNotFoundMsg
  | cmd :: rest =>
    match probe cmd versionArg with
    | some true => .ok cmd
    | _ => findPythonFrom probe rest

/-- `SidecarManager::find_python`: probes `python3` then `python`. -/
def SidecarManager.find_python (probe : String → String → Option Bool) :
    Except String String :=
  findPythonFrom probe pythonCandidates

/-- The loopback host `start` passes to the child process. -/
def sidecarHost : String :=
  "127.0.0.1"

/-- The port `start` passes to the child process. -/
def sidecarPort : String :=
  "3141"

/-- The fixed argument vector `start` passes to the spawned interpreter. -/
def sidecarArgs : List String :=
  ["-m", "uvicorn", "scripts.server:app", "--host", "127.0.0.1",
   "--port", "3141"]

/-- The error message prefix used when `spawn` fails
(`format!("Failed to start FastAPI server: {}", e)`). -/
def spawnFailMsg (e : String) : String :=
  "Failed to start FastAPI server: " ++ e

/-- `SidecarManager::start`: resolve the interpreter (propagating its error
via `?`), spawn the server child (mapping the error), and only then write
the new handle into the slot. -/
def SidecarManager.start (probe : String → String → Option Bool)
    (spawn : String → List String → Except String Child)
    (m : SidecarManager) : Except String Unit × SidecarManager :=
  match SidecarManager.find_python probe with
  | .error e => (.error e, m)
  | .ok python =>
    match spawn python sidecarArgs with
    | .error e => (.error (spawnFailMsg e), m)
    | .ok child => (.ok (), ⟨some child⟩)

/-- `SidecarManager::stop`: under the lock, if a handle is present, request
`kill` and then `wait`; both results are only printed by the source, never
returned. The slot is set to `None` unconditionally afterwards
(`*process = None;` runs on both branches). The Rust return type is `()`:
no error is ever propagated. -/
def SidecarManager.stop (kill wait : Child → Except String Unit)
    (m : SidecarManager) : SidecarManager :=
  match m.process with
  | some child =>
    let kres := kill child
    let wres := wait child
    match kres, wres with
    | _, _ => ⟨none⟩
  | none => ⟨none⟩

/-- `SidecarManager::is_running`: under the lock, case analysis on the slot
and on `try_wait`: empty slot → `false`; already exited → clear the slot
and return `false`; still alive → `true`; probe error → print and return
`false` with the slot untouched. -/
def SidecarManager.is_running (tw : Child → TryWaitResult)
    (m : SidecarManager) : Bool × SidecarManager :=
  match m.process with
  | some child =>
    match tw child with
    | .exited => (false, ⟨none⟩)
    | .stillRunning => (true, m)
    | .probeError => (false, m)
  | none => (false, m)

/-- Overall deadline of `wait_for_health` (`Duration::from_secs(10)`),
in milliseconds. -/
def healthTimeoutMs : Nat :=
  10000

/-- Per-request timeout of the health probe (`Duration::from_secs(2)`),
in milliseconds. -/
def healthRequestTimeoutMs : Nat :=
  2000

/-- Backoff slept after every failed attempt
(`Duration::from_millis(500)`). -/
def healthBackoffMs : Nat :=
  500

/-- The URL of the health probe issued by `wait_for_health`. -/
def healthCheckUrl : String :=
  "http://127.0.0.1:3141/api/v1/health"

/-- The HTTP method of the health probe (`client.get(...)`). -/
def healthRequestMethod : String :=
  "GET"

/-- The timeout error message of `wait_for_health`. -/
def healthTimeoutMsg : String :=
  "Timeout waiting for FastAPI server to start"

/-- The polling loop of `wait_for_health`, with an explicit elapsed-time
clock in milliseconds. While `elapsed < healthTimeoutMs`, issue the
request at time `elapsed`: on `Ok` + success status return `Ok(())`
immediately (no backoff is added); on any other outcome sleep the fixed
backoff and retry with the clock advanced by the request duration plus the
backoff — the deadline is never reset. The `fuel` argument only makes the
recursion structural: every failed round advances the clock by at least
`healthBackoffMs`, so from `(fuel, elapsed)` with
`healthTimeoutMs ≤ elapsed + fuel * healthBackoffMs` the fuel-exhaustion
branch coincides with the deadline branch. The second component of the
result is the elapsed clock when the function returns. -/
def waitForHealthFuel (outcome : Nat → HttpResult) (dur : Nat → Nat) :
    Nat → Nat → Except String Unit × Nat
  | 0, elapsed => (.error healthTimeoutMsg, elapsed)
  | fuel + 1, elapsed =>
    if elapsed < healthTimeoutMs then
      match outcome elapsed with
      | .response true => (.ok (), elapsed + dur elapsed)
      | _ =>
        waitForHealthFuel outcome dur fuel
          (elapsed + dur elapsed + healthBackoffMs)
    else
      (.error healthTimeoutMsg, elapsed)

/-- Fuel sufficient for the whole deadline window:
`21 * healthBackoffMs ≥ healthTimeoutMs + healthBackoffMs`. -/
def healthFuel : Nat :=
  21

/-- `SidecarManager::wait_for_health`: run the polling loop from elapsed
time `0`. The body of the Rust function only builds an HTTP client, polls,
and sleeps; it never locks or touches `self.process`, so the supervisor
state passes through unchanged. -/
def SidecarManager.wait_for_health (outcome : Nat → HttpResult)
    (dur : Nat → Nat) (m : SidecarManager) :
    (Except String Unit × Nat) × SidecarManager :=
  (waitForHealthFuel outcome dur healthFuel 0, m)

/-- `impl Drop for SidecarManager`: the destructor body is exactly one call
to `self.stop()`. -/
def SidecarManager.dropManager (kill wait : Child → Except String Unit)
    (m : SidecarManager) : SidecarManager :=
  SidecarManager.stop kill wait m

/-- C2: for every starting state of the supervisor, when `stop` returns the
stored handle slot is cleared, even when `kill` or `wait` reported an
error; `stop` returns `()` so it never propagates any error, and every
subsequent `is_running` call returns `false` until a new `start` stores a
handle. -/
theorem stop_clears_handle_unconditionally :
    (∀ kill wait m, SidecarManager.stop kill wait m = ⟨none⟩)
    ∧ (∀ kill wait tw m,
        SidecarManager.is_running tw (SidecarManager.stop kill wait m)
          = (false, ⟨none⟩)) := by
  constructor
  · intro kill wait m
    rcases m with ⟨_ | c⟩ <;> rfl
  · intro kill wait tw m
    rcases m with ⟨_ | c⟩ <;> rfl

/-- C3: `is_running` behaves by exact case analysis on the stored handle:
with no handle stored (in particular on a freshly created supervisor) it
returns `false`; with a handle stored, if `try_wait` reports an exit it
clears the handle and returns `false`, if the process is alive it returns
`true` and leaves the state unchanged, and if the probe errors it returns
`false` and leaves the state unchanged. -/
theorem is_running_case_analysis :
    (∀ tw, SidecarManager.is_running tw SidecarManager.new
        = (false, SidecarManager.new))
    ∧ (∀ tw, SidecarManager.is_running tw ⟨none⟩ = (false, ⟨none⟩))
    ∧ (∀ tw c, tw c = .exited →
        SidecarManager.is_running tw ⟨some c⟩ = (false, ⟨none⟩))
    ∧ (∀ tw c, tw c = .stillRunning →
        SidecarManager.is_running tw ⟨some c⟩ = (true, ⟨some c⟩))
    ∧ (∀ tw c, tw c = .probeError →
        SidecarManager.is_running tw ⟨some c⟩ = (false, ⟨some c⟩)) := by
  refine ⟨fun tw => rfl, fun tw => rfl, ?_, ?_, ?_⟩ <;>
    intro tw c h <;> simp [SidecarManager.is_running, h]

/-- Witness for C3 at concrete probes and a concrete handle. -/
theorem is_running_case_analysis_witness :
    SidecarManager.is_running (fun _ => .exited) ⟨some ⟨7⟩⟩ = (false, ⟨none⟩)
    ∧ SidecarManager.is_running (fun _ => .stillRunning) ⟨some ⟨7⟩⟩
        = (true, ⟨some ⟨7⟩⟩)
    ∧ SidecarManager.is_running (fun _ => .probeError) ⟨some ⟨7⟩⟩
        = (false, ⟨some ⟨7⟩⟩) :=
  ⟨is_running_case_analysis.2.2.1 _ ⟨7⟩ rfl,
   is_running_case_analysis.2.2.2.1 _ ⟨7⟩ rfl,
   is_running_case_analysis.2.2.2.2 _ ⟨7⟩ rfl⟩

/-- C7: `stop` is idempotent: calling it with no handle recorded (the state
of a supervisor that was never started) is a no-op that leaves the state
unchanged, and for every state `stop` followed by `stop` leaves the same
state as a single `stop`. -/
theorem stop_idempotent_spec :
    (∀ kill wait, SidecarManager.stop kill wait ⟨none⟩ = ⟨none⟩)
    ∧ (∀ kill wait, SidecarManager.stop kill wait SidecarManager.new
        = SidecarManager.new)
    ∧ (∀ kill wait m,
        SidecarManager.stop kill wait (SidecarManager.stop kill wait m)
          = SidecarManager.stop kill wait m) := by
  refine ⟨fun kill wait => rfl, fun kill wait => rfl, ?_⟩
  intro kill wait m
  rcases m with ⟨_ | c⟩ <;> rfl

/-- C8: teardown (the `Drop` implementation) is exactly one invocation of
`stop`, so after teardown the handle slot is cleared and no supervised
process handle is retained. -/
theorem drop_invokes_stop_once :
    (∀ kill wait m, SidecarManager.dropManager kill wait m
        = SidecarManager.stop kill wait m)
    ∧ (∀ kill wait m, SidecarManager.dropManager kill wait m = ⟨none⟩) := by
  refine ⟨fun kill wait m => rfl, ?_⟩
  intro kill wait m
  rcases m with ⟨_ | c⟩ <;> rfl

/-- C10: `wait_for_health` never reads or writes the stored handle slot:
for every call, whatever the poll outcomes, the supervisor state after the
call equals the state before the call. -/
theorem wait_for_health_frame :
    ∀ outcome dur m, (SidecarManager.wait_for_health outcome dur m).2 = m :=
  fun _ _ _ => rfl

/-- C4 counterexample: the health probe's URL does not use the endpoint
path `/health` on the loopback host and port passed to the child — the
actual path is `/api/v1/health`. -/
theorem health_url_not_root_health :
    healthCheckUrl
      ≠ "http://" ++ sidecarHost ++ ":" ++ sidecarPort ++ "/health" := by
  decide

/-- C4 (amended): the health probe issued by `wait_for_health` is a GET
request to the endpoint path `/api/v1/health` on the same fixed loopback
host and port that `start` passes to the spawned child process. -/
theorem health_request_target_amended :
    healthRequestMethod = "GET"
    ∧ healthCheckUrl
        = "http://" ++ sidecarHost ++ ":" ++ sidecarPort ++ "/api/v1/health"
    ∧ sidecarArgs
        = ["-m", "uvicorn", "scripts.server:app", "--host", sidecarHost,
           "--port", sidecarPort] := by
  refine ⟨rfl, by decide, by decide⟩

/-- C5: runtime resolution probes `python3` then `python` with the
version-query argument and returns the first candidate whose invocation
exits successfully; if no candidate succeeds it fails with the
runtime-not-found error carrying the remediation hint naming the minimum
required version, `start` propagates that error unchanged, leaves the
state untouched, and never consults the spawner. -/
theorem find_python_resolution_spec :
    (∀ probe, probe "python3" versionArg = some true →
        SidecarManager.find_python probe = .ok "python3")
    ∧ (∀ probe, probe "python3" versionArg ≠ some true →
        probe "python" versionArg = some true →
        SidecarManager.find_python probe = .ok "python")
    ∧ (∀ probe, probe "python3" versionArg ≠ some true →
        probe "python" versionArg ≠ some true →
        SidecarManager.find_python probe = .error pythonNotFoundMsg)
    ∧ pythonNotFoundMsg
        = "Python not found. Please install Python 3.10 or higher."
    ∧ (∀ probe spawn spawn2 m e,
        SidecarManager.find_python probe = .error e →
        SidecarManager.start probe spawn m = (.error e, m)
        ∧ SidecarManager.start probe spawn m
            = SidecarManager.start probe spawn2 m) := by
  refine ⟨?_, ?_, ?_, rfl, ?_⟩
  · intro probe h
    simp [SidecarManager.find_python, pythonCandidates, findPythonFrom, h]
  · intro probe h1 h2
    simp only [SidecarManager.find_python, pythonCandidates, findPythonFrom]
    rw [h2]
  · intro probe h1 h2
    simp only [SidecarManager.find_python, pythonCandidates, findPythonFrom]
  · intro probe spawn spawn2 m e h
    constructor
    · simp [SidecarManager.start, h]
    · simp [SidecarManager.start, h]

/-- Witness for C5 at concrete probe functions. -/
theorem find_python_resolution_spec_witness :
    SidecarManager.find_python (fun _ _ => some true) = .ok "python3"
    ∧ SidecarManager.find_python (fun _ _ => none)
        = .error pythonNotFoundMsg
    ∧ SidecarManager.start (fun _ _ => none) (fun _ _ => .ok ⟨1⟩)
        SidecarManager.new = (.error pythonNotFoundMsg, SidecarManager.new) :=
  ⟨find_python_resolution_spec.1 _ rfl,
   find_python_resolution_spec.2.2.1 _ (fun h => Option.noConfusion h)
     (fun h => Option.noConfusion h),
   (find_python_resolution_spec.2.2.2.2 (fun _ _ => none) (fun _ _ => .ok ⟨1⟩)
     (fun _ _ => .ok ⟨2⟩) SidecarManager.new pythonNotFoundMsg rfl).1⟩

/-- C6: `start` enforces no precondition against a handle already being
stored: whenever runtime resolution and spawning succeed, `start` on a
state holding a handle returns `Ok` (never an already-running error) and
overwrites the slot with the newly spawned handle, discarding the old
one. -/
theorem start_overwrites_existing_handle :
    ∀ probe spawn c py child,
      SidecarManager.find_python probe = .ok py →
      spawn py sidecarArgs = .ok child →
      SidecarManager.start probe spawn ⟨some c⟩ = (.ok (), ⟨some child⟩) := by
  intro probe spawn c py child h1 h2
  simp [SidecarManager.start, h1, h2]

/-- Witness for C6: a stored handle `⟨1⟩` is silently replaced by the
newly spawned handle `⟨2⟩`. -/
theorem start_overwrites_existing_handle_witness :
    SidecarManager.start (fun _ _ => some true) (fun _ _ => .ok ⟨2⟩)
      ⟨some ⟨1⟩⟩ = (.ok (), ⟨some ⟨2⟩⟩) :=
  start_overwrites_existing_handle _ _ ⟨1⟩ "python3" ⟨2⟩ rfl rfl

/-- C9: `start` is atomic on error: whenever it returns an error (runtime
resolution failed or the OS spawn failed), the stored handle slot is left
exactly as it was before the call. -/
theorem start_error_leaves_state :
    ∀ probe spawn m e,
      (SidecarManager.start probe spawn m).1 = .error e →
      (SidecarManager.start probe spawn m).2 = m := by
  intro probe spawn m e h
  simp only [SidecarManager.start] at h ⊢
  cases hf : SidecarManager.find_python probe with
  | error e2 => simp
  | ok py =>
    show (match spawn py sidecarArgs with
      | Except.error e => (Except.error (spawnFailMsg e), m)
      | Except.ok child =>
        (Except.ok (), ({ process := some child } : SidecarManager))).2 = m
    rw [hf] at h
    cases hs : spawn py sidecarArgs with
    | error e2 => simp [hs]
    | ok child => simp [hs] at h

/-- Witness for C9: a failed runtime resolution leaves the stored handle
`⟨9⟩` in place. -/
theorem start_error_leaves_state_witness :
    (SidecarManager.start (fun _ _ => some false) (fun _ _ => .ok ⟨3⟩)
      ⟨some ⟨9⟩⟩).2 = ⟨some ⟨9⟩⟩ :=
  start_error_leaves_state _ _ _ pythonNotFoundMsg rfl

/-- If no poll ever yields an HTTP success status, the loop ends with the
timeout error and the elapsed clock at or past the overall deadline
(provided the fuel covers the deadline window, which `healthFuel` does). -/
theorem waitForHealthFuel_never_success (outcome : Nat → HttpResult)
    (dur : Nat → Nat) (h : ∀ t, outcome t ≠ .response true) :
    ∀ fuel elapsed, healthTimeoutMs ≤ elapsed + fuel * healthBackoffMs →
      (waitForHealthFuel outcome dur fuel elapsed).1 = .error healthTimeoutMsg
      ∧ healthTimeoutMs ≤ (waitForHealthFuel outcome dur fuel elapsed).2 := by
  intro fuel
  induction fuel with
  | zero =>
    intro elapsed hb
    refine ⟨rfl, ?_⟩
    simpa using hb
  | succ n ih =>
    intro elapsed hb
    by_cases hlt : elapsed < healthTimeoutMs
    · have hstep : healthTimeoutMs
          ≤ (elapsed + dur elapsed + healthBackoffMs) + n * healthBackoffMs := by
        simp only [healthBackoffMs] at hb ⊢
        omega
      have hrec := ih (elapsed + dur elapsed + healthBackoffMs) hstep
      simp only [waitForHealthFuel]
      rw [if_pos hlt]
      cases ho : outcome elapsed with
      | response b =>
        cases b with
        | true => exact absurd ho (h elapsed)
        | false => exact hrec
      | connError => exact hrec
    · simp only [waitForHealthFuel]
      rw [if_neg hlt]
      exact ⟨rfl, Nat.le_of_not_lt hlt⟩

/-- C1: the per-request timeout is shorter than the fixed overall deadline;
within the deadline, a poll that yields an HTTP success status returns
success immediately, adding no backoff sleep; a failed poll (connection
error, request timeout, or non-success status) is followed by exactly one
fixed backoff sleep and the loop continues with the same deadline (the
elapsed clock is carried forward, never reset); and if no poll ever
succeeds, `wait_for_health` returns the timeout error with the elapsed
clock at or past the overall deadline. -/
theorem wait_for_health_poll_deadline_spec :
    healthRequestTimeoutMs < healthTimeoutMs
    ∧ (∀ outcome dur fuel elapsed, elapsed < healthTimeoutMs →
        outcome elapsed = .response true →
        waitForHealthFuel outcome dur (fuel + 1) elapsed
          = (.ok (), elapsed + dur elapsed))
    ∧ (∀ outcome dur fuel elapsed, elapsed < healthTimeoutMs →
        outcome elapsed ≠ .response true →
        waitForHealthFuel outcome dur (fuel + 1) elapsed
          = waitForHealthFuel outcome dur fuel
              (elapsed + dur elapsed + healthBackoffMs))
    ∧ (∀ outcome dur m, (∀ t, outcome t ≠ .response true) →
        (SidecarManager.wait_for_health outcome dur m).1.1
            = .error healthTimeoutMsg
        ∧ healthTimeoutMs
            ≤ (SidecarManager.wait_for_health outcome dur m).1.2) := by
  refine ⟨by decide, ?_, ?_, ?_⟩
  · intro outcome dur fuel elapsed hlt hsucc
    simp only [waitForHealthFuel]
    rw [if_pos hlt, hsucc]
  · intro outcome dur fuel elapsed hlt hne
    simp only [waitForHealthFuel]
    rw [if_pos hlt]
  · intro outcome dur m h
    have hb : healthTimeoutMs ≤ 0 + healthFuel * healthBackoffMs := by decide
    exact waitForHealthFuel_never_success outcome dur h healthFuel 0 hb

/-- Witness for C1: an endpoint healthy from the first poll yields success
after just the request duration; an endpoint that never answers yields the
timeout error. -/
theorem wait_for_health_poll_deadline_spec_witness :
    waitForHealthFuel (fun _ => .response true) (fun _ => 120) 20 0
      = (.ok (), 120)
    ∧ (SidecarManager.wait_for_health (fun _ => .connError) (fun _ => 0)
        SidecarManager.new).1.1 = .error healthTimeoutMsg :=
  ⟨wait_for_health_poll_deadline_spec.2.1 (fun _ => .response true)
     (fun _ => 120) 19 0 (by decide) rfl,
   (wait_for_health_poll_deadline_spec.2.2.2 (fun _ => .connError)
     (fun _ => 0) SidecarManager.new (fun t h => HttpResult.noConfusion h)).1⟩
